import Mathlib

/-!
# Shallow embedding of `flowcontainer/reader.py`

The source is a single class `Reader` with two methods:

* `read(path, filter, extension)` delegates to `read_tshark` and, on any
  exception, emits a warning naming the error and re-raises it.
* `read_tshark(path, filter_str, extension)` builds a tshark command,
  runs it as a subprocess, and parses the `+`-delimited stdout lines
  into rows.

We embed the parsing pipeline faithfully: Python string operations are
modelled on `List Char` (`split`, `strip`, `replace`), Python list
indexing that can raise `IndexError` is modelled with `List.get?`, the
warning stream is an explicit list of strings, and the subprocess is an
input (either a start failure carrying the exception text, or decoded
stdout/stderr).
-/

namespace Flowcontainer

/-- Python `s.split(c)` for a one-character separator, on char lists:
always returns a non-empty list of (possibly empty) chunks. -/
def splitOnChar (c : Char) : List Char → List (List Char)
  | [] => [[]]
  | x :: xs =>
    match splitOnChar c xs with
    | [] => [[]]
    | h :: t => if x = c then [] :: h :: t else (x :: h) :: t

/-- Python `s.split(c)` on strings. -/
def pySplit (c : Char) (s : String) : List String :=
  (splitOnChar c s.data).map (fun l => (⟨l⟩ : String))

/-- Python `s.strip()` (leading and trailing whitespace removed). -/
def pyStrip (s : String) : String :=
  ⟨((s.data.dropWhile Char.isWhitespace).reverse.dropWhile Char.isWhitespace).reverse⟩

/-- Python `s.replace(',', '')` (line 187 of the source: `packet[10].replace(',', '')`). -/
def pyRemoveCommas (s : String) : String :=
  ⟨s.data.filter (fun ch => ch ≠ ',')⟩

/-- The `extension` argument of `read` / `read_tshark`: either a single
string or a list of strings. -/
inductive ExtArg where
  | str : String → ExtArg
  | list : List String → ExtArg
deriving DecidableEq, Repr

/-- Lines 143-144 of the source: `if type(extension)==type(""): extension=[extension]`. -/
def normalizeExt : ExtArg → List String
  | .str s => [s]
  | .list l => l

/-- Lines 146-149: only non-empty names are added to the tshark command
as `-e` fields (inserted just before the trailing `ip.id` field). -/
def requestedExtensions (e : ExtArg) : List String :=
  (normalizeExt e).filter (fun s => s ≠ "")

/-- Line 165 of the source: `protocols = {'17': 'udp', '6': 'tcp'}`. -/
def protocols : List (String × String) := [("17", "udp"), ("6", "tcp")]

/-- Line 184: `protocols.get(packet[3], 'unknown')`. -/
def protoName (s : String) : String :=
  (protocols.lookup s).getD "unknown"

/-- One output row.  The source builds each row as a Python list of 11
cells (lines 195 and 197); the last cell is itself a list (the
extension values `packet[13:-1]`). -/
structure Row where
  path : String
  protocol : String
  stream : String
  timestamp : String
  ip_len : String
  src : String
  dst : String
  srcport : String
  dstport : String
  payload_len : String
  ext : List String
deriving DecidableEq, Repr

/-- Outcome of processing one stdout line: dropped by the length check
(line 181), aborted by a Python `IndexError`, or an assembled row. -/
inductive LineResult where
  | skip : LineResult
  | err : LineResult
  | ok : Row → LineResult
deriving DecidableEq, Repr

/-- Lines 181-197 of the source, on the already-split field vector.
Indices 0-8 are guarded by the `len(packet) < 9` check; indices 10, 11
and 12 are not, so `List.get?` models the possible `IndexError`. -/
def processFields (path : String) (packet : List String) : LineResult :=
  if packet.length < 9 then .skip
  else
    match packet.get? 10 with
    | none => .err
    | some f10 =>
      if protoName (packet.getD 3 "") = "tcp" then
        match packet.get? 11 with
        | none => .err
        | some f11 =>
          .ok ⟨path, protoName (packet.getD 3 ""), packet.getD 1 "", packet.getD 0 "",
               pyRemoveCommas f10,
               (pySplit ',' (packet.getD 4 "")).headD "",
               (pySplit ',' (packet.getD 7 "")).headD "",
               packet.getD 5 "", packet.getD 8 "", f11, (packet.drop 13).dropLast⟩
      else
        match packet.get? 12 with
        | none => .err
        | some f12 =>
          .ok ⟨path, protoName (packet.getD 3 ""), packet.getD 2 "", packet.getD 0 "",
               pyRemoveCommas f10,
               (pySplit ',' (packet.getD 4 "")).headD "",
               (pySplit ',' (packet.getD 7 "")).headD "",
               packet.getD 6 "", packet.getD 9 "", f12, (packet.drop 13).dropLast⟩

/-- Lines 169-171: each line is stripped and split on `'+'` before the
field checks. -/
def processLine (path : String) (line : String) : LineResult :=
  processFields path (pySplit '+' (pyStrip line))

/-- The loop of lines 167-197: lines are processed in order; a skipped
line contributes nothing; an `IndexError` aborts the whole call. -/
def parseLines (path : String) : List String → Except String (List Row)
  | [] => .ok []
  | l :: ls =>
    match processLine path l with
    | .skip => parseLines path ls
    | .err => .error "list index out of range"
    | .ok r => (parseLines path ls).map (fun rs => r :: rs)

/-- Line 167: `filter(None, out.decode('utf-8').split('\n'))` — split
decoded stdout on newlines and drop empty lines. -/
def pyLines (out : String) : List String :=
  ((splitOnChar '\n' out.data).map (fun l => (⟨l⟩ : String))).filter (fun s => s ≠ "")

/-- The result of `read_tshark`: either `np.asarray(result)` on a
non-empty row list (11 cells per row), or the explicit empty array
`np.zeros((0, 12+len(extension)))` of line 207, whose column count we
record. -/
inductive Table where
  | filled : List Row → Table
  | empty : Nat → Table
deriving DecidableEq, Repr

/-- Number of rows of the returned array. -/
def Table.nrows : Table → Nat
  | .filled rs => rs.length
  | .empty _ => 0

/-- Number of columns of the returned array: each assembled row has 11
cells (the extension values are nested inside the last cell), and the
explicit empty array carries its own column count. -/
def Table.ncols : Table → Nat
  | .filled _ => 11
  | .empty c => c

/-- The subprocess of lines 157-159, as an input to the model: either
`Popen` raises (tool missing), or the process ran and produced decoded
stdout and stderr. -/
inductive ProcResult where
  | startFailure : String → ProcResult
  | output : String → String → ProcResult
deriving DecidableEq, Repr

/-- Line 163's warning text. -/
def stderrWarning (err : String) : String :=
  "Error reading file: '" ++ err ++ "'"

/-- `read_tshark` (lines 95-215): returns the warnings emitted (in
order) and either the raised exception text or the resulting table. -/
def read_tshark (path : String) (extension : ExtArg) (proc : ProcResult) :
    List String × Except String Table :=
  match proc with
  | .startFailure msg => ([], .error msg)
  | .output out err =>
    let warns := if err ≠ "" then [stderrWarning err] else []
    match parseLines path (pyLines out) with
    | .error e => (warns, .error e)
    | .ok rows =>
      if rows.length = 0 then
        (warns, .ok (.empty (12 + (normalizeExt extension).length)))
      else
        (warns, .ok (.filled rows))

/-- Lines 88-91's warning text. -/
def fallbackWarning (e : String) : String :=
  "tshark error: '" ++ e ++
    "', defaulting to pyshark backend. note that the pyshark backend is much slower than the tshark backend."

/-- `read` (lines 38-92): delegates to `read_tshark`; on an exception it
emits a warning naming the error and re-raises the same exception. -/
def read (path : String) (extension : ExtArg) (proc : ProcResult) :
    List String × Except String Table :=
  match read_tshark path extension proc with
  | (ws, .ok t) => (ws, .ok t)
  | (ws, .error e) => (ws ++ [fallbackWarning e], .error e)

/-! ## Helper lemmas -/

theorem splitOnChar_ne_nil (c : Char) (l : List Char) : splitOnChar c l ≠ [] := by
  cases l with
  | nil => simp [splitOnChar]
  | cons x xs =>
    simp only [splitOnChar]
    cases hsp : splitOnChar c xs with
    | nil => simp
    | cons h t => by_cases hx : x = c <;> simp [hx]

theorem splitOnChar_headD (c : Char) (l : List Char) :
    (splitOnChar c l).headD [] = l.takeWhile (fun x => x ≠ c) := by
  induction l with
  | nil => simp [splitOnChar]
  | cons x xs ih =>
    simp only [splitOnChar, List.takeWhile_cons]
    cases hsp : splitOnChar c xs with
    | nil => exact absurd hsp (splitOnChar_ne_nil c xs)
    | cons h t =>
      rw [hsp] at ih
      by_cases hx : x = c
      · simp [hx]
      · simpa [hx] using ih

theorem pySplit_headD (c : Char) (s : String) :
    (pySplit c s).headD "" = ⟨s.data.takeWhile (fun x => x ≠ c)⟩ := by
  unfold pySplit
  cases hsp : splitOnChar c s.data with
  | nil => exact absurd hsp (splitOnChar_ne_nil c s.data)
  | cons h t =>
    have hh := splitOnChar_headD c s.data
    rw [hsp] at hh
    simp only [List.headD_cons] at hh
    simp [hh]

theorem takeWhile_of_no_comma {c : Char} {l : List Char} (h : c ∉ l) :
    l.takeWhile (fun x => x ≠ c) = l := by
  induction l with
  | nil => rfl
  | cons x xs ih =>
    simp only [List.mem_cons, not_or] at h
    have hx : x ≠ c := fun hh => h.1 hh.symm
    simp only [List.takeWhile_cons]
    simp [hx, ih h.2]
    intro a ha hac
    exact h.2 (hac ▸ ha)

theorem takeWhile_append_comma {c : Char} {l1 l2 : List Char} (h : c ∉ l1) :
    (l1 ++ c :: l2).takeWhile (fun x => x ≠ c) = l1 := by
  have hpos : ∀ a ∈ l1, (fun x => decide (x ≠ c)) a = true := by
    intro a ha
    have hac : a ≠ c := by
      intro hac
      subst hac
      exact h ha
    simpa using hac
  rw [List.takeWhile_append_of_pos hpos]
  simp [List.takeWhile_cons]

theorem protoName_eval (s : String) :
    protoName s = if s = "17" then "udp" else if s = "6" then "tcp" else "unknown" := by
  unfold protoName protocols
  by_cases h17 : s = "17"
  · subst h17; simp [List.lookup_cons]
  · have e17 : (s == "17") = false := beq_eq_false_iff_ne.mpr h17
    by_cases h6 : s = "6"
    · subst h6; simp [List.lookup_cons, e17]
    · have e6 : (s == "6") = false := beq_eq_false_iff_ne.mpr h6
      simp [List.lookup_cons, e17, e6, h17, h6]

theorem protoName_eq_tcp_iff (s : String) : protoName s = "tcp" ↔ s = "6" := by
  rw [protoName_eval]
  by_cases h17 : s = "17"
  · subst h17; simp
  · by_cases h6 : s = "6" <;> simp [h17, h6]

theorem protoName_eq_udp_iff (s : String) : protoName s = "udp" ↔ s = "17" := by
  rw [protoName_eval]
  by_cases h17 : s = "17"
  · subst h17; simp
  · by_cases h6 : s = "6" <;> simp [h17, h6]

theorem protoName_eq_unknown (s : String) (h6 : s ≠ "6") (h17 : s ≠ "17") :
    protoName s = "unknown" := by
  rw [protoName_eval]
  simp [h6, h17]

theorem protoName_mem (s : String) :
    protoName s = "tcp" ∨ protoName s = "udp" ∨ protoName s = "unknown" := by
  rw [protoName_eval]
  by_cases h17 : s = "17"
  · simp [h17]
  · by_cases h6 : s = "6" <;> simp [h17, h6]

theorem get?_eq_some_getD {l : List String} {n : Nat} (h : n < l.length) :
    l.get? n = some (l.getD n "") := by
  simp [List.get?_eq_getElem?, List.getElem?_eq_getElem h]

/-- Inversion: everything that is true of an assembled row, read off the
branches of `processFields`. -/
theorem processFields_ok_inversion {path : String} {packet : List String} {r : Row}
    (h : processFields path packet = .ok r) :
    9 ≤ packet.length ∧ r.path = path ∧
    r.protocol = protoName (packet.getD 3 "") ∧
    r.timestamp = packet.getD 0 "" ∧
    (∃ v, packet.get? 10 = some v ∧ r.ip_len = pyRemoveCommas v) ∧
    r.src = (pySplit ',' (packet.getD 4 "")).headD "" ∧
    r.dst = (pySplit ',' (packet.getD 7 "")).headD "" ∧
    r.ext = (packet.drop 13).dropLast ∧
    (packet.getD 3 "" = "6" →
      r.stream = packet.getD 1 "" ∧ r.srcport = packet.getD 5 "" ∧
      r.dstport = packet.getD 8 "" ∧ packet.get? 11 = some r.payload_len) ∧
    (packet.getD 3 "" ≠ "6" →
      r.stream = packet.getD 2 "" ∧ r.srcport = packet.getD 6 "" ∧
      r.dstport = packet.getD 9 "" ∧ packet.get? 12 = some r.payload_len) := by
  unfold processFields at h
  split at h
  · exact absurd h (by simp)
  next hlen =>
    split at h
    · exact absurd h (by simp)
    next f10 h10 =>
      split at h
      next htcp =>
        split at h
        · exact absurd h (by simp)
        next f11 h11 =>
          injection h with h
          subst h
          refine ⟨by omega, rfl, rfl, rfl, ⟨f10, h10, rfl⟩, rfl, rfl, rfl, ?_, ?_⟩
          · intro _; exact ⟨rfl, rfl, rfl, h11⟩
          · intro h3; exact absurd ((protoName_eq_tcp_iff _).mp htcp) h3
      next htcp =>
        split at h
        · exact absurd h (by simp)
        next f12 h12 =>
          injection h with h
          subst h
          refine ⟨by omega, rfl, rfl, rfl, ⟨f10, h10, rfl⟩, rfl, rfl, rfl, ?_, ?_⟩
          · intro h3; exact absurd ((protoName_eq_tcp_iff _).mpr h3) htcp
          · intro _; exact ⟨rfl, rfl, rfl, h12⟩

/-- A line with at least 13 fields is always assembled into a row. -/
theorem processFields_ok_of_length (path : String) (packet : List String)
    (h : 13 ≤ packet.length) : ∃ r, processFields path packet = .ok r := by
  unfold processFields
  rw [if_neg (by omega)]
  simp only [get?_eq_some_getD (show 10 < packet.length by omega)]
  by_cases htcp : protoName (packet.getD 3 "") = "tcp"
  · rw [if_pos htcp]
    simp only [get?_eq_some_getD (show 11 < packet.length by omega)]
    exact ⟨_, rfl⟩
  · rw [if_neg htcp]
    simp only [get?_eq_some_getD (show 12 < packet.length by omega)]
    exact ⟨_, rfl⟩

/-- A line whose protocol field is `"6"` needs only 12 fields to be
assembled. -/
theorem processFields_ok_of_tcp_length (path : String) (packet : List String)
    (h3 : packet.getD 3 "" = "6") (h : 12 ≤ packet.length) :
    ∃ r, processFields path packet = .ok r := by
  unfold processFields
  rw [if_neg (by omega)]
  simp only [get?_eq_some_getD (show 10 < packet.length by omega)]
  rw [if_pos ((protoName_eq_tcp_iff _).mpr h3)]
  simp only [get?_eq_some_getD (show 11 < packet.length by omega)]
  exact ⟨_, rfl⟩

/-- An admitted line with fewer than 11 fields hits the out-of-bounds
access at index 10. -/
theorem processFields_err_of_short (path : String) (packet : List String)
    (h9 : 9 ≤ packet.length) (h : packet.length < 11) :
    processFields path packet = .err := by
  unfold processFields
  rw [if_neg (by omega)]
  have h10 : packet.get? 10 = none := by
    rw [List.get?_eq_getElem?]
    exact List.getElem?_eq_none (by omega)
  rw [h10]

/-- The warnings of a subprocess-backed `read_tshark` call are exactly
the stderr warning (when stderr is non-empty), whatever stdout holds. -/
theorem read_tshark_warns (path : String) (ext : ExtArg) (out err : String) :
    (read_tshark path ext (.output out err)).1 =
      if err ≠ "" then [stderrWarning err] else [] := by
  unfold read_tshark
  cases hp : parseLines path (pyLines out) with
  | error e => simp [hp]
  | ok rows => by_cases hr : rows.length = 0 <;> simp [hp, hr]

/-- The table/exception of a subprocess-backed `read_tshark` call does
not depend on stderr. -/
theorem read_tshark_snd_eval (path : String) (ext : ExtArg) (out err : String) :
    (read_tshark path ext (.output out err)).2 =
      match parseLines path (pyLines out) with
      | .error e => .error e
      | .ok rows =>
        if rows.length = 0 then .ok (.empty (12 + (normalizeExt ext).length))
        else .ok (.filled rows) := by
  unfold read_tshark
  cases hp : parseLines path (pyLines out) with
  | error e => simp [hp]
  | ok rows => by_cases hr : rows.length = 0 <;> simp [hp, hr]

theorem read_of_tshark_ok {path : String} {ext : ExtArg} {proc : ProcResult}
    {ws : List String} {t : Table} (h : read_tshark path ext proc = (ws, .ok t)) :
    read path ext proc = (ws, .ok t) := by
  unfold read
  rw [h]

theorem read_of_tshark_error {path : String} {ext : ExtArg} {proc : ProcResult}
    {ws : List String} {e : String} (h : read_tshark path ext proc = (ws, .error e)) :
    read path ext proc = (ws ++ [fallbackWarning e], .error e) := by
  unfold read
  rw [h]

theorem pySplit_headD_comma {a b : String} (ha : ',' ∉ a.data) :
    (pySplit ',' (a ++ "," ++ b)).headD "" = a := by
  rw [pySplit_headD]
  have hc : ("," : String).data = [','] := rfl
  have hdata : (a ++ "," ++ b).data = a.data ++ ',' :: b.data := by
    rw [String.data_append, String.data_append, hc, List.append_assoc]
    rfl
  rw [hdata, takeWhile_append_comma ha]

theorem pySplit_headD_no_comma {s : String} (h : ',' ∉ s.data) :
    (pySplit ',' s).headD "" = s := by
  rw [pySplit_headD, takeWhile_of_no_comma h]

/-! ## Claims -/

/-- C1, counterexample: with the default `extension=""` argument and a
capture producing no lines, `read` returns the explicit empty table
with 13 columns, not `11 + 0` as the claim states. -/
theorem C1_column_count_counterexample :
    (read "c1.pcap" (ExtArg.str "") (ProcResult.output "" "")).2 = .ok (Table.empty 13) ∧
    (Table.empty 13).nrows = 0 ∧
    (Table.empty 13).ncols ≠ 11 + (requestedExtensions (ExtArg.str "")).length :=
  ⟨rfl, rfl, by decide⟩

/-- C1, amended: when parsing retains zero rows, `read` returns a table
with zero rows and exactly `12 + L` columns, where `L` is the length of
the extensions argument after string-to-list normalization (a string
argument, including the default empty string, becomes a one-element
list, and empty-string entries are counted even though they add no
field to the command). -/
theorem C1_empty_capture_columns (path : String) (ext : ExtArg) (out err : String)
    (h : parseLines path (pyLines out) = .ok []) :
    ∃ t, (read path ext (ProcResult.output out err)).2 = .ok t ∧
      t.nrows = 0 ∧ t.ncols = 12 + (normalizeExt ext).length := by
  refine ⟨.empty (12 + (normalizeExt ext).length), ?_, rfl, rfl⟩
  have h2 := read_tshark_snd_eval path ext out err
  rw [h] at h2
  simp only [List.length_nil, ite_true] at h2
  have hok : read_tshark path ext (ProcResult.output out err)
      = ((read_tshark path ext (ProcResult.output out err)).1,
         Except.ok (Table.empty (12 + (normalizeExt ext).length))) := by
    rw [← h2]
  rw [read_of_tshark_ok hok]

/-- C1 witness: a concrete empty capture with one requested extension
yields zero rows and `12 + 1 = 13` columns. -/
theorem C1_empty_capture_columns_witness :
    parseLines "w1.pcap" (pyLines "") = .ok [] ∧
    ∃ t, (read "w1.pcap" (ExtArg.list ["tls.handshake.extension_server_name"])
        (ProcResult.output "" "")).2 = .ok t ∧
      t.nrows = 0 ∧
      t.ncols = 12 + (normalizeExt (ExtArg.list ["tls.handshake.extension_server_name"])).length :=
  ⟨rfl, C1_empty_capture_columns "w1.pcap"
    (ExtArg.list ["tls.handshake.extension_server_name"]) "" "" rfl⟩

/-- C3: whenever `read_tshark` raises, `read` appends a warning that
names the underlying error text and re-raises the very same exception;
the warning is in the trace before the propagated error. -/
theorem C3_warn_then_reraise (path : String) (ext : ExtArg) (proc : ProcResult)
    (ws : List String) (e : String)
    (h : read_tshark path ext proc = (ws, .error e)) :
    read path ext proc = (ws ++ [fallbackWarning e], .error e) ∧
    ∃ pre post, fallbackWarning e = pre ++ e ++ post :=
  ⟨read_of_tshark_error h,
   ⟨"tshark error: '",
    "', defaulting to pyshark backend. note that the pyshark backend is much slower than the tshark backend.",
    rfl⟩⟩

/-- C3 witness: a concrete start failure is re-raised after the
fallback warning. -/
theorem C3_warn_then_reraise_witness :
    read "w3.pcap" (ExtArg.str "") (ProcResult.startFailure "tshark: not found")
        = ([] ++ [fallbackWarning "tshark: not found"], .error "tshark: not found") ∧
    ∃ pre post, fallbackWarning "tshark: not found"
        = pre ++ "tshark: not found" ++ post :=
  C3_warn_then_reraise "w3.pcap" (ExtArg.str "")
    (ProcResult.startFailure "tshark: not found") [] "tshark: not found" rfl

/-- C5: a line that splits into fewer than 9 fields is dropped: it
yields no row, no error, and parsing of the remaining lines is exactly
parsing without it. -/
theorem C5_short_line_dropped (path line : String) (ls : List String)
    (h : (pySplit '+' (pyStrip line)).length < 9) :
    processLine path line = .skip ∧
    parseLines path (line :: ls) = parseLines path ls := by
  have hskip : processLine path line = .skip := by
    unfold processLine processFields
    rw [if_pos h]
  refine ⟨hskip, ?_⟩
  have hstep : parseLines path (line :: ls)
      = match processLine path line with
        | .skip => parseLines path ls
        | .err => Except.error "list index out of range"
        | .ok r => (parseLines path ls).map (fun rs => r :: rs) := rfl
  rw [hstep, hskip]

/-- C5 witness: a concrete 3-field line is dropped. -/
theorem C5_short_line_dropped_witness :
    (pySplit '+' (pyStrip "0+1+2")).length < 9 ∧
    processLine "w5.pcap" "0+1+2" = .skip ∧
    parseLines "w5.pcap" ["0+1+2"] = parseLines "w5.pcap" [] :=
  ⟨by decide, C5_short_line_dropped "w5.pcap" "0+1+2" [] (by decide)⟩

/-- C9: a non-empty stderr stream produces exactly one warning whose
text contains the decoded stderr, and the returned table or exception
is a function of stdout alone: changing stderr never changes it. -/
theorem C9_stderr_nonfatal (path : String) (ext : ExtArg) (out err err2 : String)
    (h : err ≠ "") :
    (read_tshark path ext (.output out err)).1 = [stderrWarning err] ∧
    (∃ pre post, stderrWarning err = pre ++ err ++ post) ∧
    (read_tshark path ext (.output out err)).2 = (read_tshark path ext (.output out err2)).2 := by
  refine ⟨?_, ⟨"Error reading file: '", "'", rfl⟩, ?_⟩
  · rw [read_tshark_warns]
    rw [if_pos h]
  · rw [read_tshark_snd_eval, read_tshark_snd_eval]

/-- C9 witness: a concrete stderr string is warned about and does not
change the parsed result. -/
theorem C9_stderr_nonfatal_witness :
    (read_tshark "w9.pcap" (ExtArg.str "") (ProcResult.output "" "some tshark error")).1
        = [stderrWarning "some tshark error"] ∧
    (∃ pre post, stderrWarning "some tshark error" = pre ++ "some tshark error" ++ post) ∧
    (read_tshark "w9.pcap" (ExtArg.str "") (ProcResult.output "" "some tshark error")).2
        = (read_tshark "w9.pcap" (ExtArg.str "") (ProcResult.output "" "")).2 :=
  C9_stderr_nonfatal "w9.pcap" (ExtArg.str "") "" "some tshark error" "" (by decide)

/-- C10, counterexample: a 9-field line passes the admission check but
the IP-length access at index 10 is out of bounds, so processing it
raises an index error rather than staying in bounds. -/
theorem C10_admitted_index_error_counterexample :
    ¬(["0", "1", "2", "6", "4", "5", "6", "7", "8"].length < 9) ∧
    processFields "c10.pcap" ["0", "1", "2", "6", "4", "5", "6", "7", "8"] = .err :=
  ⟨by decide, by decide⟩

/-- C10, amended: the 9-field admission check alone does not put the
later fixed-index accesses in bounds.  An admitted line is assembled
without index error when it has at least 12 fields and its protocol
field is `"6"`, or at least 13 fields otherwise; an admitted line with
fewer than 11 fields always raises at the IP-length access. -/
theorem C10_admitted_bounds (path : String) (packet : List String) :
    (packet.getD 3 "" = "6" → 12 ≤ packet.length →
      ∃ r, processFields path packet = .ok r) ∧
    (13 ≤ packet.length → ∃ r, processFields path packet = .ok r) ∧
    (9 ≤ packet.length → packet.length < 11 → processFields path packet = .err) :=
  ⟨fun h3 h => processFields_ok_of_tcp_length path packet h3 h,
   fun h => processFields_ok_of_length path packet h,
   fun h9 h => processFields_err_of_short path packet h9 h⟩

/-- C10 witness: concrete lines at the three amended bounds. -/
theorem C10_admitted_bounds_witness :
    (∃ r, processFields "wa.pcap"
        ["0", "1", "2", "6", "4", "5", "6", "7", "8", "9", "10", "11"] = .ok r) ∧
    (∃ r, processFields "wb.pcap"
        ["0", "1", "2", "17", "4", "5", "6", "7", "8", "9", "10", "11", "12"] = .ok r) ∧
    processFields "wc.pcap" ["0", "1", "2", "17", "4", "5", "6", "7", "8", "9"] = .err :=
  ⟨(C10_admitted_bounds "wa.pcap" _).1 (by decide) (by decide),
   (C10_admitted_bounds "wb.pcap" _).2.1 (by decide),
   (C10_admitted_bounds "wc.pcap" _).2.2 (by decide) (by decide)⟩

/-- C2: a retained row whose raw IP-protocol field is `"6"` takes its
stream id, source port, destination port and payload length from the
TCP column group (fields 1, 5, 8, 11); every other retained row takes
them from the UDP column group (fields 2, 6, 9, 12). -/
theorem C2_column_groups (path : String) (packet : List String) (r : Row)
    (h : processFields path packet = .ok r) :
    (packet.getD 3 "" = "6" →
      r.stream = packet.getD 1 "" ∧ r.srcport = packet.getD 5 "" ∧
      r.dstport = packet.getD 8 "" ∧ packet.get? 11 = some r.payload_len) ∧
    (packet.getD 3 "" ≠ "6" →
      r.stream = packet.getD 2 "" ∧ r.srcport = packet.getD 6 "" ∧
      r.dstport = packet.getD 9 "" ∧ packet.get? 12 = some r.payload_len) := by
  obtain ⟨-, -, -, -, -, -, -, -, htcp, hudp⟩ := processFields_ok_inversion h
  exact ⟨htcp, hudp⟩

/-- C2 witness: a concrete tcp line with sentinel values in both column
groups selects the TCP group. -/
theorem C2_column_groups_witness :
    ((["0", "1", "2", "6", "4", "5", "6", "7", "8", "9", "10", "11", "12", "13"].getD 3 ""
        = "6" →
      (⟨"w2.pcap", "tcp", "1", "0", "10", "4", "7", "5", "8", "11", []⟩ : Row).stream
          = ["0", "1", "2", "6", "4", "5", "6", "7", "8", "9", "10", "11", "12", "13"].getD 1 "" ∧
      (⟨"w2.pcap", "tcp", "1", "0", "10", "4", "7", "5", "8", "11", []⟩ : Row).srcport
          = ["0", "1", "2", "6", "4", "5", "6", "7", "8", "9", "10", "11", "12", "13"].getD 5 "" ∧
      (⟨"w2.pcap", "tcp", "1", "0", "10", "4", "7", "5", "8", "11", []⟩ : Row).dstport
          = ["0", "1", "2", "6", "4", "5", "6", "7", "8", "9", "10", "11", "12", "13"].getD 8 "" ∧
      ["0", "1", "2", "6", "4", "5", "6", "7", "8", "9", "10", "11", "12", "13"].get? 11
          = some (⟨"w2.pcap", "tcp", "1", "0", "10", "4", "7", "5", "8", "11", []⟩ : Row).payload_len) ∧
    (["0", "1", "2", "6", "4", "5", "6", "7", "8", "9", "10", "11", "12", "13"].getD 3 ""
        ≠ "6" →
      (⟨"w2.pcap", "tcp", "1", "0", "10", "4", "7", "5", "8", "11", []⟩ : Row).stream
          = ["0", "1", "2", "6", "4", "5", "6", "7", "8", "9", "10", "11", "12", "13"].getD 2 "" ∧
      (⟨"w2.pcap", "tcp", "1", "0", "10", "4", "7", "5", "8", "11", []⟩ : Row).srcport
          = ["0", "1", "2", "6", "4", "5", "6", "7", "8", "9", "10", "11", "12", "13"].getD 6 "" ∧
      (⟨"w2.pcap", "tcp", "1", "0", "10", "4", "7", "5", "8", "11", []⟩ : Row).dstport
          = ["0", "1", "2", "6", "4", "5", "6", "7", "8", "9", "10", "11", "12", "13"].getD 9 "" ∧
      ["0", "1", "2", "6", "4", "5", "6", "7", "8", "9", "10", "11", "12", "13"].get? 12
          = some (⟨"w2.pcap", "tcp", "1", "0", "10", "4", "7", "5", "8", "11", []⟩ : Row).payload_len)) :=
  C2_column_groups "w2.pcap"
    ["0", "1", "2", "6", "4", "5", "6", "7", "8", "9", "10", "11", "12", "13"]
    ⟨"w2.pcap", "tcp", "1", "0", "10", "4", "7", "5", "8", "11", []⟩ (by decide)

/-- C4: every retained row's protocol is `tcp`, `udp` or `unknown`;
`"6"` maps to `tcp`, `"17"` to `udp`, everything else to `unknown`; and
a full line with an unmapped protocol number is still retained, with
protocol `unknown`. -/
theorem C4_protocol_values :
    (∀ path packet r, processFields path packet = .ok r →
        r.protocol = "tcp" ∨ r.protocol = "udp" ∨ r.protocol = "unknown") ∧
    protoName "6" = "tcp" ∧ protoName "17" = "udp" ∧
    (∀ s, s ≠ "6" → s ≠ "17" → protoName s = "unknown") ∧
    (∀ path packet, 13 ≤ packet.length →
        ∃ r, processFields path packet = .ok r ∧
          r.protocol = protoName (packet.getD 3 "")) := by
  refine ⟨?_, by decide, by decide, fun s h6 h17 => protoName_eq_unknown s h6 h17, ?_⟩
  · intro path packet r h
    obtain ⟨-, -, hproto, -, -, -, -, -, -, -⟩ := processFields_ok_inversion h
    rw [hproto]
    exact protoName_mem _
  · intro path packet hlen
    obtain ⟨r, hr⟩ := processFields_ok_of_length path packet hlen
    obtain ⟨-, -, hproto, -, -, -, -, -, -, -⟩ := processFields_ok_inversion hr
    exact ⟨r, hr, hproto⟩

/-- C4 witness: a concrete line with protocol number `"99"` is retained
with protocol `unknown`. -/
theorem C4_protocol_values_witness :
    ((⟨"w4.pcap", "unknown", "2", "0", "10", "4", "7", "6", "9", "12", []⟩ : Row).protocol = "tcp" ∨
      (⟨"w4.pcap", "unknown", "2", "0", "10", "4", "7", "6", "9", "12", []⟩ : Row).protocol = "udp" ∨
      (⟨"w4.pcap", "unknown", "2", "0", "10", "4", "7", "6", "9", "12", []⟩ : Row).protocol = "unknown") ∧
    protoName "99" = "unknown" ∧
    (∃ r, processFields "w4.pcap"
        ["0", "1", "2", "99", "4", "5", "6", "7", "8", "9", "10", "11", "12", "13"] = .ok r ∧
      r.protocol = protoName
        (["0", "1", "2", "99", "4", "5", "6", "7", "8", "9", "10", "11", "12", "13"].getD 3 "")) :=
  ⟨C4_protocol_values.1 "w4.pcap"
      ["0", "1", "2", "99", "4", "5", "6", "7", "8", "9", "10", "11", "12", "13"]
      ⟨"w4.pcap", "unknown", "2", "0", "10", "4", "7", "6", "9", "12", []⟩ (by decide),
   C4_protocol_values.2.2.2.1 "99" (by decide) (by decide),
   C4_protocol_values.2.2.2.2 "w4.pcap"
      ["0", "1", "2", "99", "4", "5", "6", "7", "8", "9", "10", "11", "12", "13"] (by decide)⟩

/-- C6: on a full-length line (14 fields plus one per requested
extension), the retained row's extension cell is exactly the `n` field
values at positions 13 … 13+n-1, in order, with the trailing IP
identifier excluded; with exactly one requested extension it is the
singleton of the field at position 13. -/
theorem C6_extension_slice (path : String) (ext : ExtArg) (packet : List String) (r : Row)
    (hlen : packet.length = 14 + (requestedExtensions ext).length)
    (h : processFields path packet = .ok r) :
    r.ext = (packet.drop 13).take (requestedExtensions ext).length ∧
    r.ext.length = (requestedExtensions ext).length ∧
    ((requestedExtensions ext).length = 1 → r.ext = [packet.getD 13 ""]) := by
  obtain ⟨-, -, -, -, -, -, -, hext, -, -⟩ := processFields_ok_inversion h
  have hdl : (packet.drop 13).length = (requestedExtensions ext).length + 1 := by
    rw [List.length_drop, hlen]
    omega
  have htake : (packet.drop 13).dropLast
      = (packet.drop 13).take (requestedExtensions ext).length := by
    rw [List.dropLast_eq_take, hdl]
    simp
  refine ⟨hext.trans htake, ?_, ?_⟩
  · rw [hext, htake, List.length_take, hdl]
    omega
  · intro h1
    have h13 : 13 < packet.length := by omega
    have hgd : packet.getD 13 "" = packet[13] := by
      rw [List.getD_eq_getElem?_getD, List.getElem?_eq_getElem h13]
      rfl
    rw [hext, htake, h1, hgd, List.drop_eq_getElem_cons h13]
    rfl

/-- C6 witness: one requested extension, a sentinel at position 13, and
the IP identifier at position 14: the extension cell is exactly the
sentinel singleton. -/
theorem C6_extension_slice_witness :
    ["0", "1", "2", "6", "4", "5", "6", "7", "8", "9", "10", "11", "12", "SNI", "id"].length
        = 14 + (requestedExtensions (ExtArg.str "tls.handshake.extension_server_name")).length ∧
    (⟨"w6.pcap", "tcp", "1", "0", "10", "4", "7", "5", "8", "11", ["SNI"]⟩ : Row).ext
        = [["0", "1", "2", "6", "4", "5", "6", "7", "8", "9", "10", "11", "12", "SNI", "id"].getD 13 ""] :=
  ⟨by decide,
   (C6_extension_slice "w6.pcap" (ExtArg.str "tls.handshake.extension_server_name")
      ["0", "1", "2", "6", "4", "5", "6", "7", "8", "9", "10", "11", "12", "SNI", "id"]
      ⟨"w6.pcap", "tcp", "1", "0", "10", "4", "7", "5", "8", "11", ["SNI"]⟩
      (by decide) (by decide)).2.2 (by decide)⟩

/-- C7: when the source-IP or destination-IP field holds several
comma-separated addresses, only the part before the first comma is
stored; a comma-free field is stored unchanged. -/
theorem C7_first_ip_retained (path : String) (packet : List String) (r : Row)
    (h : processFields path packet = .ok r) :
    (∀ a b : String, ',' ∉ a.data → packet.getD 4 "" = a ++ "," ++ b → r.src = a) ∧
    (',' ∉ (packet.getD 4 "").data → r.src = packet.getD 4 "") ∧
    (∀ a b : String, ',' ∉ a.data → packet.getD 7 "" = a ++ "," ++ b → r.dst = a) ∧
    (',' ∉ (packet.getD 7 "").data → r.dst = packet.getD 7 "") := by
  obtain ⟨-, -, -, -, -, hsrc, hdst, -, -, -⟩ := processFields_ok_inversion h
  refine ⟨?_, ?_, ?_, ?_⟩
  · intro a b ha hf
    rw [hsrc, hf]
    exact pySplit_headD_comma ha
  · intro hnc
    rw [hsrc]
    exact pySplit_headD_no_comma hnc
  · intro a b ha hf
    rw [hdst, hf]
    exact pySplit_headD_comma ha
  · intro hnc
    rw [hdst]
    exact pySplit_headD_no_comma hnc

/-- C7 witness: the field `"10.0.0.1,10.0.0.2"` resolves to
`"10.0.0.1"`. -/
theorem C7_first_ip_retained_witness :
    (⟨"w7.pcap", "tcp", "1", "0", "10", "10.0.0.1", "7", "5", "8", "11", []⟩ : Row).src
        = "10.0.0.1" :=
  (C7_first_ip_retained "w7.pcap"
      ["0", "1", "2", "6", "10.0.0.1,10.0.0.2", "5", "6", "7", "8", "9", "10", "11", "12", "13"]
      ⟨"w7.pcap", "tcp", "1", "0", "10", "10.0.0.1", "7", "5", "8", "11", []⟩
      (by decide)).1 "10.0.0.1" "10.0.0.2" (by decide) (by decide)

/-- C8: the stored IP-length is the raw field at index 10 with every
comma removed, and therefore contains no comma. -/
theorem C8_iplen_no_commas (path : String) (packet : List String) (r : Row)
    (h : processFields path packet = .ok r) :
    (∃ v, packet.get? 10 = some v ∧ r.ip_len = pyRemoveCommas v) ∧
    ',' ∉ r.ip_len.data := by
  obtain ⟨-, -, -, -, ⟨v, hv, hr⟩, -, -, -, -, -⟩ := processFields_ok_inversion h
  refine ⟨⟨v, hv, hr⟩, ?_⟩
  rw [hr]
  intro hmem
  have hmem2 : ',' ∈ v.data.filter (fun ch => ch ≠ ',') := hmem
  rcases List.mem_filter.mp hmem2 with ⟨-, hdec⟩
  simp at hdec

/-- C8 witness: the raw field `"1,500"` is stored as `"1500"`, with no
comma. -/
theorem C8_iplen_no_commas_witness :
    (∃ v, ["0", "1", "2", "6", "4", "5", "6", "7", "8", "9", "1,500", "11", "12", "13"].get? 10
        = some v ∧
      (⟨"w8.pcap", "tcp", "1", "0", "1500", "4", "7", "5", "8", "11", []⟩ : Row).ip_len
        = pyRemoveCommas v) ∧
    ',' ∉ (⟨"w8.pcap", "tcp", "1", "0", "1500", "4", "7", "5", "8", "11", []⟩ : Row).ip_len.data :=
  C8_iplen_no_commas "w8.pcap"
    ["0", "1", "2", "6", "4", "5", "6", "7", "8", "9", "1,500", "11", "12", "13"]
    ⟨"w8.pcap", "tcp", "1", "0", "1500", "4", "7", "5", "8", "11", []⟩ (by decide)

end Flowcontainer
